import Mathlib

/-!
# oget: transfer-then-remove mailbox retrieval

A shallow embedding of `src/oget.go` (`loadConfig`, `processFiles`,
`transferAndRemove`, `transferFile`).

Go strings are modelled by `String`.  Every call the program makes to the
operating system, the SFTP client or the standard output is recorded as an
`Event`; the outcome of each call is chosen by an `Env`, an arbitrary function
of the events that happened before it, so that a statement quantified over
every `Env` covers every pattern of failures.  Each function takes the history
`h` of earlier events and returns its result together with the events it
performed itself, in order.  A Go `error` is `Option String`: `none` is `nil`,
`some msg` is an error with that message.
-/

namespace Oget

/-! ## Data model -/

/-- The configuration record, `type Config struct` of `oget.go`. -/
structure Config where
  OnionAddress : String
  Port : String
  Username : String
  Password : String
  RemoteDir : String
  LocalDir : String
  ProxyAddr : String
deriving DecidableEq

/-- A byte of file content. -/
abbrev Byte := Fin 256

/-- The part of `os.FileInfo` the program reads: `Name()` and `IsDir()`. -/
structure FileInfo where
  name : String
  isDir : Bool
deriving DecidableEq

/-- A Go `error` value: `none` is `nil`. -/
abbrev GoError := Option String

/-- The calls the program makes, each with its arguments and its outcome. -/
inductive Event where
  /-- Call `os.MkdirAll(path, perm)`. -/
  | osMkdirAll (path : String) (perm : Nat) (err : GoError)
  /-- Call `client.ReadDir(path)`. -/
  | sftpReadDir (path : String) (files : List FileInfo) (err : GoError)
  /-- Call `client.Open(path)`. -/
  | sftpOpen (path : String) (err : GoError)
  /-- Call `os.Create(path)`. -/
  | osCreate (path : String) (err : GoError)
  /-- Call `io.Copy(dst, src)`, with the bytes it wrote to `dst`. -/
  | ioCopy (dst src : String) (written : List Byte) (err : GoError)
  /-- Call `srcFile.Close()` on the remote stream opened at `path`. -/
  | closeSrc (path : String)
  /-- Call `dstFile.Close()` on the local file created at `path`. -/
  | closeDst (path : String)
  /-- Call `client.Remove(path)`. -/
  | sftpRemove (path : String) (err : GoError)
  /-- Text written to standard output by `fmt.Println` or `fmt.Printf`. -/
  | stdout (text : String)
  /-- A message handed to `log.Printf`. -/
  | logPrintf (text : String)
deriving DecidableEq

/-- The environment: the outcome of every external call, as a function of the
events that happened before the call and of the call's arguments. -/
structure Env where
  osMkdirAll : List Event → String → Nat → GoError
  sftpReadDir : List Event → String → List FileInfo × GoError
  sftpOpen : List Event → String → GoError
  osCreate : List Event → String → GoError
  ioCopy : List Event → String → String → List Byte × GoError
  sftpRemove : List Event → String → GoError
  filepathJoin : String → String → String

/-! ## String helpers of the Go standard library -/

/-- Scan of `strings.ReplaceAll` for a non-empty `old`: `skip` counts the
characters of a match that are still to be dropped. -/
def replaceAllAux (old new : List Char) : List Char → Nat → List Char
  | [], _ => []
  | _ :: cs, skip + 1 => replaceAllAux old new cs skip
  | c :: cs, 0 =>
    if old.isPrefixOf (c :: cs) then new ++ replaceAllAux old new cs (old.length - 1)
    else c :: replaceAllAux old new cs 0

/-- The function `strings.ReplaceAll(s, old, new)`: every non-overlapping
occurrence of `old`, from the left, is replaced by `new`; an empty `old`
matches before every character and at the end. -/
def replaceAll (s old new : String) : String :=
  if old.data.isEmpty then ⟨new.data ++ s.data.flatMap (fun c => c :: new.data)⟩
  else ⟨replaceAllAux old.data new.data s.data 0⟩

/-- The function `strings.TrimSuffix(s, suffix)`. -/
def trimSuffix (s suffix : String) : String :=
  if suffix.data.isSuffixOf s.data then ⟨s.data.take (s.data.length - suffix.data.length)⟩
  else s

/-! ## The program -/

/-- Lines 83 to 97 of `loadConfig`: default filling, then backslash
normalization of the remote directory. -/
def fillDefaults (config : Config) : Config :=
  let config := if config.Port = "" then { config with Port := "22" } else config
  let config := if config.RemoteDir = "" then { config with RemoteDir := "inbox" } else config
  let config := if config.LocalDir = "" then { config with LocalDir := "downloads" } else config
  let config :=
    if config.ProxyAddr = "" then { config with ProxyAddr := "127.0.0.1:9050" } else config
  { config with RemoteDir := replaceAll config.RemoteDir "\\" "/" }

/-- The function `loadConfig`.  `opened` is the outcome of `os.Open(filename)`
and, when the file opened, of decoding its JSON into a `Config`. -/
def loadConfig (opened : Except String (Except String Config)) : Except String Config :=
  match opened with
  | .error err => .error ("could not open config file: " ++ err)
  | .ok (.error err) => .error ("invalid config format: " ++ err)
  | .ok (.ok config) => .ok (fillDefaults config)

/-- The body of `transferFile` up to its `return`: the result, the events
performed, and the stack of deferred calls (most recently deferred first). -/
def transferFileBody (env : Env) (h : List Event) (remotePath localPath : String) :
    GoError × List Event × List Event :=
  match env.sftpOpen h remotePath with
  | some err => (some ("open failed: " ++ err), [.sftpOpen remotePath (some err)], [])
  | none =>
    let evs := [Event.sftpOpen remotePath none]
    let deferred := [Event.closeSrc remotePath]
    match env.osCreate (h ++ evs) localPath with
    | some err => (some ("create failed: " ++ err), evs ++ [.osCreate localPath (some err)], deferred)
    | none =>
      let evs := evs ++ [.osCreate localPath none]
      let deferred := Event.closeDst localPath :: deferred
      match env.ioCopy (h ++ evs) localPath remotePath with
      | (written, some err) =>
        (some ("copy failed: " ++ err), evs ++ [.ioCopy localPath remotePath written (some err)],
          deferred)
      | (written, none) =>
        (none, evs ++ [.ioCopy localPath remotePath written none], deferred)

/-- The function `transferFile`: the body, then the deferred calls, last
deferred first. -/
def transferFile (env : Env) (h : List Event) (remotePath localPath : String) :
    GoError × List Event :=
  let (err, evs, deferred) := transferFileBody env h remotePath localPath
  (err, evs ++ deferred)

/-- The function `transferAndRemove`. -/
def transferAndRemove (env : Env) (h : List Event) (remotePath localPath : String) :
    GoError × List Event :=
  match transferFile env h remotePath localPath with
  | (some err, evs) => (some ("transfer failed: " ++ err), evs)
  | (none, evs) =>
    match env.sftpRemove (h ++ evs) remotePath with
    | some err => (some ("remove failed: " ++ err), evs ++ [.sftpRemove remotePath (some err)])
    | none => (none, evs ++ [.sftpRemove remotePath none])

/-- The remote path of a listed entry, line 148 of `processFiles`. -/
def remotePathOf (config : Config) (file : FileInfo) : String :=
  trimSuffix config.RemoteDir "/" ++ "/" ++ file.name

/-- The local path of a listed entry, line 149 of `processFiles`. -/
def localPathOf (env : Env) (config : Config) (file : FileInfo) : String :=
  env.filepathJoin config.LocalDir file.name

/-- One iteration of the `for` loop of `processFiles`. -/
def processEntry (env : Env) (config : Config) (h : List Event) (file : FileInfo) : List Event :=
  if file.isDir then []
  else
    let remotePath := remotePathOf config file
    let localPath := localPathOf env config file
    match transferAndRemove env h remotePath localPath with
    | (some err, evs) => evs ++ [.logPrintf ("Failed to process " ++ file.name ++ ": " ++ err)]
    | (none, evs) => evs ++ [.stdout ("Successfully processed: " ++ file.name ++ "\n")]

/-- The `for` loop of `processFiles`, lines 143 to 157. -/
def processLoop (env : Env) (config : Config) : List Event → List FileInfo → List Event
  | _, [] => []
  | h, file :: files =>
    let evs := processEntry env config h file
    evs ++ processLoop env config (h ++ evs) files

/-- The function `processFiles`. -/
def processFiles (env : Env) (config : Config) (h : List Event) : GoError × List Event :=
  match env.osMkdirAll h config.LocalDir 0o700 with
  | some err =>
    (some ("failed to create local directory: " ++ err),
      [.osMkdirAll config.LocalDir 0o700 (some err)])
  | none =>
    let evs := [Event.osMkdirAll config.LocalDir 0o700 none]
    match env.sftpReadDir (h ++ evs) config.RemoteDir with
    | (files, some err) =>
      (some ("failed to read remote directory " ++ config.RemoteDir ++ ": " ++ err),
        evs ++ [.sftpReadDir config.RemoteDir files (some err)])
    | (files, none) =>
      let evs := evs ++ [.sftpReadDir config.RemoteDir files none]
      if files.length = 0 then
        (none, evs ++ [.stdout "No files found in remote directory\n"])
      else
        (none, evs ++ processLoop env config (h ++ evs) files)

/-! ## What the events do to the two file systems -/

/-- The local file system as far as the program can change it: the content of
each file and which directories exist. -/
structure LocalFS where
  files : String → Option (List Byte)
  dirs : String → Bool

/-- The remote file system: the content of each file. -/
abbrev RemoteFS := String → Option (List Byte)

/-- Effect of one event on the local file system: a successful `os.MkdirAll`
leaves the directory present, a successful `os.Create` leaves an empty file,
`io.Copy` appends what it wrote to the destination. -/
def localStep (fs : LocalFS) : Event → LocalFS
  | .osMkdirAll path _ none => { fs with dirs := fun q => if q = path then true else fs.dirs q }
  | .osCreate path none => { fs with files := fun q => if q = path then some [] else fs.files q }
  | .ioCopy dst _ written _ =>
    { fs with files := fun q =>
        if q = dst then some ((fs.files dst).getD [] ++ written) else fs.files q }
  | _ => fs

/-- Effect of one event on the remote file system: only a successful
`client.Remove` changes it. -/
def remoteStep (fs : RemoteFS) : Event → RemoteFS
  | .sftpRemove path none => fun q => if q = path then none else fs q
  | _ => fs

/-- The local file system after a run of events. -/
def localAfter (fs : LocalFS) (evs : List Event) : LocalFS := evs.foldl localStep fs

/-- The remote file system after a run of events. -/
def remoteAfter (fs : RemoteFS) (evs : List Event) : RemoteFS := evs.foldl remoteStep fs

/-! ## Reading a trace -/

/-- The remote paths of the `client.Open` calls of a trace, in order. -/
def openedPaths (evs : List Event) : List String :=
  evs.filterMap fun
    | .sftpOpen path _ => some path
    | _ => none

/-- The local paths of the `os.Create` calls of a trace, in order. -/
def createdPaths (evs : List Event) : List String :=
  evs.filterMap fun
    | .osCreate path _ => some path
    | _ => none

/-- The remote paths of the `client.Remove` calls of a trace, in order. -/
def removedPaths (evs : List Event) : List String :=
  evs.filterMap fun
    | .sftpRemove path _ => some path
    | _ => none

/-- The two calls `processFiles` makes before its loop. -/
def isSetupCall : Event → Bool
  | .osMkdirAll _ _ _ => true
  | .sftpReadDir _ _ _ => true
  | _ => false

/-- Which calls of a scripted environment fail. -/
structure Faults where
  mkdirFails : Bool
  readDirFails : Bool
  openFails : List String
  createFails : List String
  copyFails : List String
  removeFails : List String

/-- No call fails. -/
def noFaults : Faults := ⟨false, false, [], [], [], []⟩

/-- A scripted environment: the listing of any directory is `listing`, every
remote file holds `content` (a failing copy writes its first byte only), a
call fails when `faults` names its path, and joining local paths puts a slash
between them. -/
def scriptedEnv (listing : List FileInfo) (content : List Byte) (faults : Faults) : Env where
  osMkdirAll := fun _ _ _ => if faults.mkdirFails then some "permission denied" else none
  sftpReadDir := fun _ _ =>
    if faults.readDirFails then ([], some "file does not exist") else (listing, none)
  sftpOpen := fun _ path => if path ∈ faults.openFails then some "file does not exist" else none
  osCreate := fun _ path => if path ∈ faults.createFails then some "permission denied" else none
  ioCopy := fun _ _ src =>
    if src ∈ faults.copyFails then (content.take 1, some "connection lost") else (content, none)
  sftpRemove := fun _ path => if path ∈ faults.removeFails then some "permission denied" else none
  filepathJoin := fun dir name => dir ++ "/" ++ name

/-- The normalization as the specification words it: each backslash of the
string replaced by a forward slash. -/
def backslashesToSlashes (s : String) : String :=
  ⟨s.data.map (fun c => if c = '\\' then '/' else c)⟩

/-- A decoded configuration that gives only the required fields. -/
def minimalConfig : Config := ⟨"example.onion", "", "user", "secret", "", "", ""⟩

/-- A listing of two files around a subdirectory. -/
def sampleListing : List FileInfo := [⟨"a.txt", false⟩, ⟨"sub", true⟩, ⟨"b.txt", false⟩]

/-- The content of every remote file of the scripted runs: `hello`. -/
def sampleContent : List Byte := [104, 101, 108, 108, 111]

/-- The scripted environment in which every call succeeds. -/
def okEnv : Env := scriptedEnv sampleListing sampleContent noFaults

/-- The scripted environment in which opening `inbox/a.txt` fails. -/
def openFailEnv : Env :=
  scriptedEnv sampleListing sampleContent ⟨false, false, ["inbox/a.txt"], [], [], []⟩

/-- The scripted environment in which copying `inbox/a.txt` fails. -/
def copyFailEnv : Env :=
  scriptedEnv sampleListing sampleContent ⟨false, false, [], [], ["inbox/a.txt"], []⟩

/-- The scripted environment in which the local directory cannot be created. -/
def mkdirFailEnv : Env :=
  scriptedEnv sampleListing sampleContent ⟨true, false, [], [], [], []⟩

/-- The scripted environment whose remote directory is empty. -/
def emptyEnv : Env := scriptedEnv [] sampleContent noFaults

/-- A local file system in which every file holds three old bytes. -/
def staleLocalFS : LocalFS := ⟨fun _ => some [1, 2, 3], fun _ => true⟩

/-! ## String lemmas -/

theorem replaceAllAux_backslash (s : List Char) :
    replaceAllAux ['\\'] ['/'] s 0 = s.map (fun c => if c = '\\' then '/' else c) := by
  induction s with
  | nil => rfl
  | cons c cs ih =>
    by_cases hc : c = '\\'
    · subst hc
      simp [replaceAllAux, ih]
    · have hc2 : ¬ ('\\' = c) := fun h => hc h.symm
      simp [replaceAllAux, ih, hc, hc2]

theorem replaceAll_backslash (s : String) :
    replaceAll s "\\" "/" = ⟨s.data.map (fun c => if c = '\\' then '/' else c)⟩ := by
  have h : replaceAll s "\\" "/" = ⟨replaceAllAux ['\\'] ['/'] s.data 0⟩ := rfl
  rw [h, replaceAllAux_backslash]

theorem trimSuffix_of_not_suffix (s suffix : String) (h : ¬ suffix.data <:+ s.data) :
    trimSuffix s suffix = s := by
  simp [trimSuffix, h]

/-! ## The exit paths of `transferFile` and `transferAndRemove` -/

theorem transferFile_open_fail (env : Env) (h : List Event) (rp lp e : String)
    (hopen : env.sftpOpen h rp = some e) :
    transferFile env h rp lp = (some ("open failed: " ++ e), [.sftpOpen rp (some e)]) := by
  simp [transferFile, transferFileBody, hopen]

theorem transferFile_create_fail (env : Env) (h : List Event) (rp lp e : String)
    (hopen : env.sftpOpen h rp = none)
    (hcreate : env.osCreate (h ++ [.sftpOpen rp none]) lp = some e) :
    transferFile env h rp lp =
      (some ("create failed: " ++ e),
        [.sftpOpen rp none, .osCreate lp (some e), .closeSrc rp]) := by
  simp [transferFile, transferFileBody, hopen, hcreate]

theorem transferFile_copy_fail (env : Env) (h : List Event) (rp lp e : String) (w : List Byte)
    (hopen : env.sftpOpen h rp = none)
    (hcreate : env.osCreate (h ++ [.sftpOpen rp none]) lp = none)
    (hcopy : env.ioCopy (h ++ [.sftpOpen rp none, .osCreate lp none]) lp rp = (w, some e)) :
    transferFile env h rp lp =
      (some ("copy failed: " ++ e),
        [.sftpOpen rp none, .osCreate lp none, .ioCopy lp rp w (some e), .closeDst lp,
          .closeSrc rp]) := by
  simp [transferFile, transferFileBody, hopen, hcreate, hcopy]

theorem transferFile_ok (env : Env) (h : List Event) (rp lp : String) (w : List Byte)
    (hopen : env.sftpOpen h rp = none)
    (hcreate : env.osCreate (h ++ [.sftpOpen rp none]) lp = none)
    (hcopy : env.ioCopy (h ++ [.sftpOpen rp none, .osCreate lp none]) lp rp = (w, none)) :
    transferFile env h rp lp =
      (none,
        [.sftpOpen rp none, .osCreate lp none, .ioCopy lp rp w none, .closeDst lp,
          .closeSrc rp]) := by
  simp [transferFile, transferFileBody, hopen, hcreate, hcopy]

/-- The four exit paths of `transferFile`. -/
theorem transferFile_cases (env : Env) (h : List Event) (rp lp : String) :
    (∃ e, env.sftpOpen h rp = some e ∧
      transferFile env h rp lp = (some ("open failed: " ++ e), [.sftpOpen rp (some e)])) ∨
    (∃ e, env.sftpOpen h rp = none ∧
      env.osCreate (h ++ [.sftpOpen rp none]) lp = some e ∧
      transferFile env h rp lp =
        (some ("create failed: " ++ e),
          [.sftpOpen rp none, .osCreate lp (some e), .closeSrc rp])) ∨
    (∃ w e, env.sftpOpen h rp = none ∧
      env.osCreate (h ++ [.sftpOpen rp none]) lp = none ∧
      env.ioCopy (h ++ [.sftpOpen rp none, .osCreate lp none]) lp rp = (w, some e) ∧
      transferFile env h rp lp =
        (some ("copy failed: " ++ e),
          [.sftpOpen rp none, .osCreate lp none, .ioCopy lp rp w (some e), .closeDst lp,
            .closeSrc rp])) ∨
    (∃ w, env.sftpOpen h rp = none ∧
      env.osCreate (h ++ [.sftpOpen rp none]) lp = none ∧
      env.ioCopy (h ++ [.sftpOpen rp none, .osCreate lp none]) lp rp = (w, none) ∧
      transferFile env h rp lp =
        (none,
          [.sftpOpen rp none, .osCreate lp none, .ioCopy lp rp w none, .closeDst lp,
            .closeSrc rp])) := by
  cases hopen : env.sftpOpen h rp with
  | some e => exact Or.inl ⟨e, rfl, transferFile_open_fail env h rp lp e hopen⟩
  | none =>
    cases hcreate : env.osCreate (h ++ [.sftpOpen rp none]) lp with
    | some e =>
      exact Or.inr (Or.inl ⟨e, rfl, rfl, transferFile_create_fail env h rp lp e hopen hcreate⟩)
    | none =>
      rcases hcopy : env.ioCopy (h ++ [.sftpOpen rp none, .osCreate lp none]) lp rp with ⟨w, r⟩
      cases r with
      | some e =>
        exact Or.inr (Or.inr (Or.inl
          ⟨w, e, rfl, rfl, hcopy, transferFile_copy_fail env h rp lp e w hopen hcreate hcopy⟩))
      | none =>
        exact Or.inr (Or.inr (Or.inr
          ⟨w, rfl, rfl, hcopy, transferFile_ok env h rp lp w hopen hcreate hcopy⟩))

theorem transferAndRemove_of_transfer_fail (env : Env) (h : List Event) (rp lp e : String)
    (evs : List Event) (ht : transferFile env h rp lp = (some e, evs)) :
    transferAndRemove env h rp lp = (some ("transfer failed: " ++ e), evs) := by
  simp [transferAndRemove, ht]

theorem transferAndRemove_of_transfer_ok (env : Env) (h : List Event) (rp lp : String)
    (evs : List Event) (ht : transferFile env h rp lp = (none, evs)) :
    transferAndRemove env h rp lp =
      ((env.sftpRemove (h ++ evs) rp).map ("remove failed: " ++ ·),
        evs ++ [.sftpRemove rp (env.sftpRemove (h ++ evs) rp)]) := by
  cases hrm : env.sftpRemove (h ++ evs) rp <;> simp [transferAndRemove, ht, hrm]

theorem transferAndRemove_ok (env : Env) (h : List Event) (rp lp : String) (w : List Byte)
    (hopen : env.sftpOpen h rp = none)
    (hcreate : env.osCreate (h ++ [.sftpOpen rp none]) lp = none)
    (hcopy : env.ioCopy (h ++ [.sftpOpen rp none, .osCreate lp none]) lp rp = (w, none))
    (hremove : env.sftpRemove
      (h ++ [.sftpOpen rp none, .osCreate lp none, .ioCopy lp rp w none, .closeDst lp,
        .closeSrc rp]) rp = none) :
    transferAndRemove env h rp lp =
      (none,
        [.sftpOpen rp none, .osCreate lp none, .ioCopy lp rp w none, .closeDst lp,
          .closeSrc rp, .sftpRemove rp none]) := by
  rw [transferAndRemove_of_transfer_ok env h rp lp _
    (transferFile_ok env h rp lp w hopen hcreate hcopy), hremove]
  rfl

/-! ## The loop of `processFiles` -/

/-- The events of `transferAndRemove`: one open of the remote path, at most
one create of the local path, at most one remove of the remote path. -/
theorem transferAndRemove_paths (env : Env) (h : List Event) (rp lp : String) :
    openedPaths (transferAndRemove env h rp lp).2 = [rp] ∧
    (createdPaths (transferAndRemove env h rp lp).2).Sublist [lp] ∧
    (removedPaths (transferAndRemove env h rp lp).2).Sublist [rp] ∧
    ∀ e ∈ (transferAndRemove env h rp lp).2, isSetupCall e = false := by
  rcases transferFile_cases env h rp lp with
    ⟨e, hopen, ht⟩ | ⟨e, hopen, hcreate, ht⟩ | ⟨w, e, hopen, hcreate, hcopy, ht⟩ |
    ⟨w, hopen, hcreate, hcopy, ht⟩
  · rw [transferAndRemove_of_transfer_fail env h rp lp _ _ ht]
    simp [openedPaths, createdPaths, removedPaths, isSetupCall]
  · rw [transferAndRemove_of_transfer_fail env h rp lp _ _ ht]
    simp [openedPaths, createdPaths, removedPaths, isSetupCall]
  · rw [transferAndRemove_of_transfer_fail env h rp lp _ _ ht]
    simp [openedPaths, createdPaths, removedPaths, isSetupCall]
  · rw [transferAndRemove_of_transfer_ok env h rp lp _ ht]
    simp [openedPaths, createdPaths, removedPaths, isSetupCall]

theorem processEntry_dir (env : Env) (config : Config) (h : List Event) (file : FileInfo)
    (hdir : file.isDir = true) : processEntry env config h file = [] := by
  simp [processEntry, hdir]

/-- An iteration on a non-directory entry: the events of `transferAndRemove`
followed by one line of output. -/
theorem processEntry_file (env : Env) (config : Config) (h : List Event) (file : FileInfo)
    (hdir : file.isDir = false) :
    ∃ line, (line = Event.logPrintf ("Failed to process " ++ file.name ++ ": " ++
          ((transferAndRemove env h (remotePathOf config file)
            (localPathOf env config file)).1.getD "")) ∨
        line = Event.stdout ("Successfully processed: " ++ file.name ++ "\n")) ∧
      processEntry env config h file =
        (transferAndRemove env h (remotePathOf config file) (localPathOf env config file)).2 ++
          [line] := by
  rcases hres : transferAndRemove env h (remotePathOf config file)
    (localPathOf env config file) with ⟨r, evs⟩
  cases r with
  | some err => exact ⟨_, Or.inl rfl, by simp [processEntry, hdir, hres]⟩
  | none => exact ⟨_, Or.inr rfl, by simp [processEntry, hdir, hres]⟩

/-- An iteration on a non-directory entry all of whose calls succeed. -/
theorem processEntry_ok (env : Env) (config : Config) (h : List Event) (file : FileInfo)
    (w : List Byte) (hdir : file.isDir = false)
    (hopen : env.sftpOpen h (remotePathOf config file) = none)
    (hcreate : env.osCreate (h ++ [.sftpOpen (remotePathOf config file) none])
      (localPathOf env config file) = none)
    (hcopy : env.ioCopy
      (h ++ [.sftpOpen (remotePathOf config file) none,
        .osCreate (localPathOf env config file) none])
      (localPathOf env config file) (remotePathOf config file) = (w, none))
    (hremove : env.sftpRemove
      (h ++ [.sftpOpen (remotePathOf config file) none,
        .osCreate (localPathOf env config file) none,
        .ioCopy (localPathOf env config file) (remotePathOf config file) w none,
        .closeDst (localPathOf env config file), .closeSrc (remotePathOf config file)])
      (remotePathOf config file) = none) :
    processEntry env config h file =
      [.sftpOpen (remotePathOf config file) none,
        .osCreate (localPathOf env config file) none,
        .ioCopy (localPathOf env config file) (remotePathOf config file) w none,
        .closeDst (localPathOf env config file), .closeSrc (remotePathOf config file),
        .sftpRemove (remotePathOf config file) none,
        .stdout ("Successfully processed: " ++ file.name ++ "\n")] := by
  simp [processEntry, hdir, transferAndRemove_ok env h _ _ w hopen hcreate hcopy hremove]

theorem processEntry_paths (env : Env) (config : Config) (h : List Event) (file : FileInfo) :
    openedPaths (processEntry env config h file) =
      ([file].filter (fun f => !f.isDir)).map (remotePathOf config) ∧
    (createdPaths (processEntry env config h file)).Sublist
      (([file].filter (fun f => !f.isDir)).map (localPathOf env config)) ∧
    (removedPaths (processEntry env config h file)).Sublist
      (([file].filter (fun f => !f.isDir)).map (remotePathOf config)) ∧
    ∀ e ∈ processEntry env config h file, isSetupCall e = false := by
  cases hdir : file.isDir with
  | true => simp [processEntry_dir env config h file hdir, openedPaths, createdPaths,
      removedPaths, hdir]
  | false =>
    obtain ⟨line, hline, hevs⟩ := processEntry_file env config h file hdir
    obtain ⟨ho, hc, hr, hs⟩ :=
      transferAndRemove_paths env h (remotePathOf config file) (localPathOf env config file)
    rw [hevs]
    simp only [openedPaths, createdPaths, removedPaths] at ho hc hr ⊢
    rcases hline with rfl | rfl
    · refine ⟨?_, ?_, ?_, ?_⟩
      · simp [List.filterMap_append, ho, hdir]
      · simpa [List.filterMap_append, hdir] using hc
      · simpa [List.filterMap_append, hdir] using hr
      · intro e he
        rcases List.mem_append.mp he with he | he
        · exact hs e he
        · simp at he; subst he; rfl
    · refine ⟨?_, ?_, ?_, ?_⟩
      · simp [List.filterMap_append, ho, hdir]
      · simpa [List.filterMap_append, hdir] using hc
      · simpa [List.filterMap_append, hdir] using hr
      · intro e he
        rcases List.mem_append.mp he with he | he
        · exact hs e he
        · simp at he; subst he; rfl

theorem processLoop_append (env : Env) (config : Config) (pre post : List FileInfo) :
    ∀ h, processLoop env config h (pre ++ post) =
      processLoop env config h pre ++
        processLoop env config (h ++ processLoop env config h pre) post := by
  induction pre with
  | nil => intro h; simp [processLoop]
  | cons f fs ih =>
    intro h
    simp [processLoop, ih, List.append_assoc]

/-- The loop opens the remote path of each non-directory entry once, in
listing order, creates and removes nothing else, and makes no setup call. -/
theorem processLoop_paths (env : Env) (config : Config) (files : List FileInfo) :
    ∀ h, openedPaths (processLoop env config h files) =
        (files.filter (fun f => !f.isDir)).map (remotePathOf config) ∧
      (createdPaths (processLoop env config h files)).Sublist
        ((files.filter (fun f => !f.isDir)).map (localPathOf env config)) ∧
      (removedPaths (processLoop env config h files)).Sublist
        ((files.filter (fun f => !f.isDir)).map (remotePathOf config)) ∧
      ∀ e ∈ processLoop env config h files, isSetupCall e = false := by
  induction files with
  | nil => intro h; simp [processLoop, openedPaths, createdPaths, removedPaths]
  | cons f fs ih =>
    intro h
    obtain ⟨ho, hc, hr, hs⟩ := processEntry_paths env config h f
    obtain ⟨ho2, hc2, hr2, hs2⟩ := ih (h ++ processEntry env config h f)
    have hsplit : (f :: fs).filter (fun f => !f.isDir) =
        [f].filter (fun f => !f.isDir) ++ fs.filter (fun f => !f.isDir) := by
      rw [← List.filter_append]; rfl
    simp only [processLoop, hsplit, List.map_append]
    simp only [openedPaths, createdPaths, removedPaths, List.filterMap_append] at *
    refine ⟨by rw [ho, ho2], hc.append hc2, hr.append hr2, ?_⟩
    intro e he
    rcases List.mem_append.mp he with he | he
    · exact hs e he
    · exact hs2 e he

/-- The run of `processFiles` once the local directory was created and the
listing succeeded. -/
theorem processFiles_listed (env : Env) (config : Config) (h : List Event)
    (files : List FileInfo)
    (hmk : env.osMkdirAll h config.LocalDir 0o700 = none)
    (hls : env.sftpReadDir (h ++ [.osMkdirAll config.LocalDir 0o700 none]) config.RemoteDir =
      (files, none)) :
    processFiles env config h =
      (none,
        [.osMkdirAll config.LocalDir 0o700 none, .sftpReadDir config.RemoteDir files none] ++
          (if files.length = 0 then [.stdout "No files found in remote directory\n"]
           else processLoop env config
             (h ++ [.osMkdirAll config.LocalDir 0o700 none,
               .sftpReadDir config.RemoteDir files none]) files)) := by
  by_cases hlen : files.length = 0 <;> simp [processFiles, hmk, hls, hlen]

theorem mem_openedPaths (evs : List Event) (p : String) :
    p ∈ openedPaths evs ↔ ∃ r, Event.sftpOpen p r ∈ evs := by
  simp only [openedPaths, List.mem_filterMap]
  constructor
  · rintro ⟨e, he, hp⟩
    cases e <;> simp at hp
    subst hp
    exact ⟨_, he⟩
  · rintro ⟨r, hr⟩
    exact ⟨_, hr, rfl⟩

theorem mem_removedPaths (evs : List Event) (p : String) :
    p ∈ removedPaths evs ↔ ∃ r, Event.sftpRemove p r ∈ evs := by
  simp only [removedPaths, List.mem_filterMap]
  constructor
  · rintro ⟨e, he, hp⟩
    cases e <;> simp at hp
    subst hp
    exact ⟨_, he⟩
  · rintro ⟨r, hr⟩
    exact ⟨_, hr, rfl⟩

theorem mem_createdPaths (evs : List Event) (p : String) :
    p ∈ createdPaths evs ↔ ∃ r, Event.osCreate p r ∈ evs := by
  simp only [createdPaths, List.mem_filterMap]
  constructor
  · rintro ⟨e, he, hp⟩
    cases e <;> simp at hp
    subst hp
    exact ⟨_, he⟩
  · rintro ⟨r, hr⟩
    exact ⟨_, hr, rfl⟩

/-! ## Transfer-then-remove -/

/-- C1: `transferAndRemove` issues the remote `Remove` call if and only if the
remote file opened, the local file was created and `io.Copy` returned no
error; whenever one of the three fails no `Remove` is issued and the remote
file system is left as it was. -/
theorem transferAndRemove_removes_iff_copied (env : Env) (h : List Event) (rp lp : String) :
    ((∃ p r, Event.sftpRemove p r ∈ (transferAndRemove env h rp lp).2) ↔
      (env.sftpOpen h rp = none ∧ env.osCreate (h ++ [.sftpOpen rp none]) lp = none ∧
        (env.ioCopy (h ++ [.sftpOpen rp none, .osCreate lp none]) lp rp).2 = none)) ∧
    ((∃ w, Event.ioCopy lp rp w none ∈ (transferAndRemove env h rp lp).2) ↔
      (env.sftpOpen h rp = none ∧ env.osCreate (h ++ [.sftpOpen rp none]) lp = none ∧
        (env.ioCopy (h ++ [.sftpOpen rp none, .osCreate lp none]) lp rp).2 = none)) ∧
    ((env.sftpOpen h rp = none ∧ env.osCreate (h ++ [.sftpOpen rp none]) lp = none ∧
        (env.ioCopy (h ++ [.sftpOpen rp none, .osCreate lp none]) lp rp).2 = none) →
      removedPaths (transferAndRemove env h rp lp).2 = [rp]) ∧
    (¬ (env.sftpOpen h rp = none ∧ env.osCreate (h ++ [.sftpOpen rp none]) lp = none ∧
        (env.ioCopy (h ++ [.sftpOpen rp none, .osCreate lp none]) lp rp).2 = none) →
      removedPaths (transferAndRemove env h rp lp).2 = [] ∧
      ∀ fs : RemoteFS, remoteAfter fs (transferAndRemove env h rp lp).2 = fs) := by
  rcases transferFile_cases env h rp lp with
    ⟨e, hopen, ht⟩ | ⟨e, hopen, hcreate, ht⟩ | ⟨w, e, hopen, hcreate, hcopy, ht⟩ |
    ⟨w, hopen, hcreate, hcopy, ht⟩
  · rw [transferAndRemove_of_transfer_fail env h rp lp _ _ ht]
    simp [hopen, removedPaths, remoteAfter, remoteStep]
  · rw [transferAndRemove_of_transfer_fail env h rp lp _ _ ht]
    simp [hopen, hcreate, removedPaths, remoteAfter, remoteStep]
  · rw [transferAndRemove_of_transfer_fail env h rp lp _ _ ht]
    simp [hopen, hcreate, hcopy, removedPaths, remoteAfter, remoteStep]
  · rw [transferAndRemove_of_transfer_ok env h rp lp _ ht]
    simp [hopen, hcreate, hcopy, removedPaths]

/-- C9: on each exit path of `transferFile` the remote stream is closed as
often as it was opened successfully and the local file as often as it was
created successfully, once each; in `transferAndRemove` a `Remove` call is the
last event, after both closes. -/
theorem transferFile_closes_what_it_opened (env : Env) (h : List Event) (rp lp : String) :
    (∀ p, (transferFile env h rp lp).2.count (.closeSrc p) =
      (transferFile env h rp lp).2.count (.sftpOpen p none)) ∧
    (∀ p, (transferFile env h rp lp).2.count (.closeDst p) =
      (transferFile env h rp lp).2.count (.osCreate p none)) ∧
    (env.sftpOpen h rp = none → (transferFile env h rp lp).2.count (.closeSrc rp) = 1) ∧
    (env.sftpOpen h rp = none → env.osCreate (h ++ [.sftpOpen rp none]) lp = none →
      (transferFile env h rp lp).2.count (.closeDst lp) = 1) ∧
    (∀ pre r post, (transferAndRemove env h rp lp).2 = pre ++ Event.sftpRemove rp r :: post →
      Event.closeSrc rp ∈ pre ∧ Event.closeDst lp ∈ pre ∧ post = []) := by
  rcases transferFile_cases env h rp lp with
    ⟨e, hopen, ht⟩ | ⟨e, hopen, hcreate, ht⟩ | ⟨w, e, hopen, hcreate, hcopy, ht⟩ |
    ⟨w, hopen, hcreate, hcopy, ht⟩
  · rw [transferAndRemove_of_transfer_fail env h rp lp _ _ ht, ht]
    refine ⟨by simp, by simp, by simp [hopen], by simp [hopen], ?_⟩
    intro pre r post hsplit
    rcases pre with _ | ⟨a, _ | ⟨b, pre⟩⟩ <;> simp at hsplit
  · rw [transferAndRemove_of_transfer_fail env h rp lp _ _ ht, ht]
    refine ⟨by simp [List.count_cons], by simp [List.count_cons], by simp [List.count_cons],
      by simp [hcreate], ?_⟩
    intro pre r post hsplit
    rcases pre with _ | ⟨a, _ | ⟨b, _ | ⟨c, _ | ⟨d, pre⟩⟩⟩⟩ <;> simp at hsplit
  · rw [transferAndRemove_of_transfer_fail env h rp lp _ _ ht, ht]
    refine ⟨by simp [List.count_cons], by simp [List.count_cons], by simp [List.count_cons],
      by simp [List.count_cons], ?_⟩
    intro pre r post hsplit
    rcases pre with _ | ⟨a, _ | ⟨b, _ | ⟨c, _ | ⟨d, _ | ⟨e, _ | ⟨f, pre⟩⟩⟩⟩⟩⟩ <;> simp at hsplit
  · rw [transferAndRemove_of_transfer_ok env h rp lp _ ht, ht]
    refine ⟨by simp [List.count_cons], by simp [List.count_cons], by simp [List.count_cons],
      by simp [List.count_cons], ?_⟩
    intro pre r post hsplit
    rcases pre with _ | ⟨a, _ | ⟨b, _ | ⟨c, _ | ⟨d, _ | ⟨e, _ | ⟨f, _ | ⟨g, pre⟩⟩⟩⟩⟩⟩⟩ <;>
      simp at hsplit
    obtain ⟨rfl, rfl, rfl, rfl, rfl, -, rfl⟩ := hsplit
    simp

/-- C10: when the remote open and the local create succeed and the copy fails
after writing `w`, `transferFile` returns the copy error, nothing removes or
restores the local file, no `Remove` is issued so the remote file system is as
before, and the local file holds exactly `w` whatever it held before; the
loop of `processFiles` logs the failure. -/
theorem transferFile_copy_failure_leaves_truncated_file (env : Env) (h : List Event)
    (rp lp e : String) (w : List Byte)
    (hopen : env.sftpOpen h rp = none)
    (hcreate : env.osCreate (h ++ [.sftpOpen rp none]) lp = none)
    (hcopy : env.ioCopy (h ++ [.sftpOpen rp none, .osCreate lp none]) lp rp = (w, some e)) :
    transferFile env h rp lp =
      (some ("copy failed: " ++ e),
        [.sftpOpen rp none, .osCreate lp none, .ioCopy lp rp w (some e), .closeDst lp,
          .closeSrc rp]) ∧
    transferAndRemove env h rp lp =
      (some ("transfer failed: " ++ ("copy failed: " ++ e)),
        [.sftpOpen rp none, .osCreate lp none, .ioCopy lp rp w (some e), .closeDst lp,
          .closeSrc rp]) ∧
    (∀ fs : RemoteFS, remoteAfter fs (transferAndRemove env h rp lp).2 = fs) ∧
    (∀ fs : LocalFS, (localAfter fs (transferAndRemove env h rp lp).2).files lp = some w) ∧
    (∀ config file, file.isDir = false → remotePathOf config file = rp →
      localPathOf env config file = lp →
      processEntry env config h file =
        [.sftpOpen rp none, .osCreate lp none, .ioCopy lp rp w (some e), .closeDst lp,
          .closeSrc rp,
          .logPrintf ("Failed to process " ++ file.name ++ ": " ++
            ("transfer failed: " ++ ("copy failed: " ++ e)))]) := by
  have ht := transferFile_copy_fail env h rp lp e w hopen hcreate hcopy
  have htr := transferAndRemove_of_transfer_fail env h rp lp _ _ ht
  refine ⟨ht, htr, ?_, ?_, ?_⟩
  · intro fs
    simp [htr, remoteAfter, remoteStep]
  · intro fs
    simp [htr, localAfter, localStep]
  · intro config file hdir hrp hlp
    simp [processEntry, hdir, hrp, hlp, htr]

/-! ## The run of `processFiles` -/

/-- C2: once the local directory was created and the listing succeeded,
`processFiles` returns no error, and a non-directory entry whose open, create,
copy and remove succeed is transferred and removed, whatever the entries
before it did. -/
theorem processFiles_isolates_failures (env : Env) (config : Config) (h : List Event)
    (files : List FileInfo)
    (hmk : env.osMkdirAll h config.LocalDir 0o700 = none)
    (hls : env.sftpReadDir (h ++ [.osMkdirAll config.LocalDir 0o700 none]) config.RemoteDir =
      (files, none)) :
    (processFiles env config h).1 = none ∧
    ∀ pre file post before rp lp w, files = pre ++ file :: post → file.isDir = false →
      before = [Event.osMkdirAll config.LocalDir 0o700 none,
          Event.sftpReadDir config.RemoteDir files none] ++
        processLoop env config
          (h ++ [.osMkdirAll config.LocalDir 0o700 none,
            .sftpReadDir config.RemoteDir files none]) pre →
      rp = remotePathOf config file → lp = localPathOf env config file →
      env.sftpOpen (h ++ before) rp = none →
      env.osCreate (h ++ before ++ [.sftpOpen rp none]) lp = none →
      env.ioCopy (h ++ before ++ [.sftpOpen rp none, .osCreate lp none]) lp rp = (w, none) →
      env.sftpRemove
        (h ++ before ++ [.sftpOpen rp none, .osCreate lp none, .ioCopy lp rp w none,
          .closeDst lp, .closeSrc rp]) rp = none →
      ∃ rest, (processFiles env config h).2 =
        before ++
          [.sftpOpen rp none, .osCreate lp none, .ioCopy lp rp w none, .closeDst lp,
            .closeSrc rp, .sftpRemove rp none,
            .stdout ("Successfully processed: " ++ file.name ++ "\n")] ++ rest := by
  rw [processFiles_listed env config h files hmk hls]
  refine ⟨rfl, ?_⟩
  intro pre file post before rp lp w hfiles hdir hbefore hrp hlp hopen hcreate hcopy hremove
  subst hfiles hbefore hrp hlp
  have hlen : ¬ (pre ++ file :: post).length = 0 := by simp
  have hentry := processEntry_ok env config _ file w hdir hopen hcreate hcopy hremove
  rw [← List.append_assoc] at hentry
  rw [if_neg hlen, processLoop_append]
  simp only [processLoop]
  rw [hentry]
  simp only [List.append_assoc, List.cons_append, List.nil_append]
  exact ⟨_, rfl⟩

/-- C6: once the local directory was created and the listing succeeded, the
remote paths `processFiles` opens are those of the non-directory entries, each
once and in listing order, and the local paths it creates and the remote paths
it removes are taken, in order, from those of the non-directory entries. -/
theorem processFiles_skips_directories (env : Env) (config : Config) (h : List Event)
    (files : List FileInfo)
    (hmk : env.osMkdirAll h config.LocalDir 0o700 = none)
    (hls : env.sftpReadDir (h ++ [.osMkdirAll config.LocalDir 0o700 none]) config.RemoteDir =
      (files, none)) :
    openedPaths (processFiles env config h).2 =
      (files.filter (fun f => !f.isDir)).map (remotePathOf config) ∧
    (createdPaths (processFiles env config h).2).Sublist
      ((files.filter (fun f => !f.isDir)).map (localPathOf env config)) ∧
    (removedPaths (processFiles env config h).2).Sublist
      ((files.filter (fun f => !f.isDir)).map (remotePathOf config)) := by
  rw [processFiles_listed env config h files hmk hls]
  by_cases hlen : files.length = 0
  · have hnil : files = [] := List.length_eq_zero.mp hlen
    subst hnil
    simp [openedPaths, createdPaths, removedPaths]
  · obtain ⟨ho, hc, hr, -⟩ := processLoop_paths env config files
      (h ++ [.osMkdirAll config.LocalDir 0o700 none, .sftpReadDir config.RemoteDir files none])
    simp only [hlen, if_false]
    simp only [openedPaths, createdPaths, removedPaths] at ho hc hr ⊢
    refine ⟨?_, ?_, ?_⟩
    · simpa [List.filterMap_append] using ho
    · simpa [List.filterMap_append] using hc
    · simpa [List.filterMap_append] using hr

/-- C7: the first event of every run of `processFiles` is the creation of the
local directory, no later event is one, and when the creation fails
`processFiles` returns the error having done nothing else. -/
theorem processFiles_creates_local_dir_first (env : Env) (config : Config) (h : List Event) :
    (∃ rest, (processFiles env config h).2 =
        Event.osMkdirAll config.LocalDir 0o700 (env.osMkdirAll h config.LocalDir 0o700) :: rest ∧
      ∀ path perm err, Event.osMkdirAll path perm err ∉ rest) ∧
    (∀ e, env.osMkdirAll h config.LocalDir 0o700 = some e →
      processFiles env config h =
        (some ("failed to create local directory: " ++ e),
          [.osMkdirAll config.LocalDir 0o700 (some e)])) := by
  cases hmk : env.osMkdirAll h config.LocalDir 0o700 with
  | some e => simp [processFiles, hmk]
  | none =>
    refine ⟨?_, by simp⟩
    rcases hls : env.sftpReadDir (h ++ [.osMkdirAll config.LocalDir 0o700 none])
      config.RemoteDir with ⟨files, r⟩
    cases r with
    | some e => simp [processFiles, hmk, hls]
    | none =>
      rw [processFiles_listed env config h files hmk hls]
      refine ⟨Event.sftpReadDir config.RemoteDir files none ::
        (if files.length = 0 then [Event.stdout "No files found in remote directory\n"]
         else processLoop env config
           (h ++ [Event.osMkdirAll config.LocalDir 0o700 none,
             Event.sftpReadDir config.RemoteDir files none]) files), rfl, ?_⟩
      intro path perm err hmem
      rcases List.mem_cons.mp hmem with hmem | hmem
      · cases hmem
      · by_cases hlen : files.length = 0
        · simp [hlen] at hmem
        · rw [if_neg hlen] at hmem
          have := (processLoop_paths env config files _).2.2.2 _ hmem
          simp [isSetupCall] at this

/-- C8: when the local directory is created and the listing succeeds with no
entry, `processFiles` returns no error after the directory creation, the
listing and one line of output: it opens, creates and removes nothing, the
local directory exists and no local or remote file changed. -/
theorem processFiles_empty_listing (env : Env) (config : Config) (h : List Event)
    (hmk : env.osMkdirAll h config.LocalDir 0o700 = none)
    (hls : env.sftpReadDir (h ++ [.osMkdirAll config.LocalDir 0o700 none]) config.RemoteDir =
      ([], none)) :
    processFiles env config h =
      (none,
        [.osMkdirAll config.LocalDir 0o700 none, .sftpReadDir config.RemoteDir [] none,
          .stdout "No files found in remote directory\n"]) ∧
    openedPaths (processFiles env config h).2 = [] ∧
    createdPaths (processFiles env config h).2 = [] ∧
    removedPaths (processFiles env config h).2 = [] ∧
    (∀ fs : LocalFS, (localAfter fs (processFiles env config h).2).dirs config.LocalDir = true ∧
      (localAfter fs (processFiles env config h).2).files = fs.files) ∧
    (∀ fs : RemoteFS, remoteAfter fs (processFiles env config h).2 = fs) := by
  rw [processFiles_listed env config h [] hmk hls]
  simp [openedPaths, createdPaths, removedPaths, localAfter, localStep, remoteAfter, remoteStep]

/-- C5, as amended: the remote paths `processFiles` opens and removes are
exactly of the form `TrimSuffix(remoteDir, "/") + "/" + name` for a
non-directory entry `name` of the listing, every such path is opened, and the
path is `remoteDir + "/" + name` whenever `remoteDir` does not end in a
slash. -/
theorem processFiles_remote_path (env : Env) (config : Config) (h : List Event)
    (files : List FileInfo)
    (hmk : env.osMkdirAll h config.LocalDir 0o700 = none)
    (hls : env.sftpReadDir (h ++ [.osMkdirAll config.LocalDir 0o700 none]) config.RemoteDir =
      (files, none)) :
    (∀ p, ((∃ r, Event.sftpOpen p r ∈ (processFiles env config h).2) ∨
        (∃ r, Event.sftpRemove p r ∈ (processFiles env config h).2)) →
      ∃ file ∈ files, file.isDir = false ∧
        p = trimSuffix config.RemoteDir "/" ++ "/" ++ file.name) ∧
    (∀ file ∈ files, file.isDir = false →
      ∃ r, Event.sftpOpen (trimSuffix config.RemoteDir "/" ++ "/" ++ file.name) r ∈
        (processFiles env config h).2) ∧
    (¬ "/".data <:+ config.RemoteDir.data →
      ∀ file : FileInfo, trimSuffix config.RemoteDir "/" ++ "/" ++ file.name =
        config.RemoteDir ++ "/" ++ file.name) := by
  rw [processFiles_listed env config h files hmk hls]
  have hpaths : ∀ evs, evs = [Event.osMkdirAll config.LocalDir 0o700 none,
        Event.sftpReadDir config.RemoteDir files none] ++
      (if files.length = 0 then [Event.stdout "No files found in remote directory\n"]
       else processLoop env config
         (h ++ [.osMkdirAll config.LocalDir 0o700 none,
           .sftpReadDir config.RemoteDir files none]) files) →
      openedPaths evs = (files.filter (fun f => !f.isDir)).map (remotePathOf config) ∧
      (removedPaths evs).Sublist
        ((files.filter (fun f => !f.isDir)).map (remotePathOf config)) := by
    intro evs hevs
    subst hevs
    by_cases hlen : files.length = 0
    · have hnil : files = [] := List.length_eq_zero.mp hlen
      subst hnil
      simp [openedPaths, removedPaths]
    · obtain ⟨ho, -, hr, -⟩ := processLoop_paths env config files
        (h ++ [.osMkdirAll config.LocalDir 0o700 none,
          .sftpReadDir config.RemoteDir files none])
      simp only [hlen, if_false]
      simp only [openedPaths, removedPaths] at ho hr ⊢
      exact ⟨by simpa [List.filterMap_append] using ho,
        by simpa [List.filterMap_append] using hr⟩
  obtain ⟨ho, hr⟩ := hpaths _ rfl
  refine ⟨?_, ?_, ?_⟩
  · intro p hp
    have hmem : p ∈ (files.filter (fun f => !f.isDir)).map (remotePathOf config) := by
      rcases hp with hp | hp
      · rw [← ho]; exact (mem_openedPaths _ p).mpr hp
      · exact hr.subset ((mem_removedPaths _ p).mpr hp)
    obtain ⟨file, hfile, hpf⟩ := List.mem_map.mp hmem
    obtain ⟨hin, hnd⟩ := List.mem_filter.mp hfile
    exact ⟨file, hin, by simpa using hnd, hpf.symm⟩
  · intro file hin hnd
    apply (mem_openedPaths _ _).mp
    rw [ho]
    exact List.mem_map.mpr ⟨file, List.mem_filter.mpr ⟨hin, by simp [hnd]⟩, rfl⟩
  · intro hns file
    rw [trimSuffix_of_not_suffix _ _ hns]

/-! ## Configuration -/

theorem backslashesToSlashes_eq_empty (s : String) : backslashesToSlashes s = "" ↔ s = "" := by
  constructor
  · intro h
    have hd : (backslashesToSlashes s).data = [] := by rw [h]
    simp only [backslashesToSlashes, List.map_eq_nil_iff] at hd
    exact String.ext hd
  · rintro rfl
    rfl

theorem fillDefaults_remoteDir (c : Config) :
    (fillDefaults c).RemoteDir =
      backslashesToSlashes (if c.RemoteDir = "" then "inbox" else c.RemoteDir) := by
  by_cases h1 : c.Port = "" <;> by_cases h2 : c.RemoteDir = "" <;>
    by_cases h3 : c.LocalDir = "" <;> by_cases h4 : c.ProxyAddr = "" <;>
    simp [fillDefaults, h1, h2, h3, h4, replaceAll_backslash, backslashesToSlashes]

/-- C3: `loadConfig` returns the decoded configuration with port `22`, remote
directory `inbox`, local directory `downloads` and proxy address
`127.0.0.1:9050` in place of each of these that is empty, every other field as
supplied, the remote directory with its backslashes turned into slashes. -/
theorem loadConfig_fills_defaults (c : Config) :
    loadConfig (.ok (.ok c)) = .ok (fillDefaults c) ∧
    (fillDefaults c).Port = (if c.Port = "" then "22" else c.Port) ∧
    (fillDefaults c).RemoteDir =
      (if c.RemoteDir = "" then "inbox" else backslashesToSlashes c.RemoteDir) ∧
    (fillDefaults c).LocalDir = (if c.LocalDir = "" then "downloads" else c.LocalDir) ∧
    (fillDefaults c).ProxyAddr = (if c.ProxyAddr = "" then "127.0.0.1:9050" else c.ProxyAddr) ∧
    (fillDefaults c).OnionAddress = c.OnionAddress ∧
    (fillDefaults c).Username = c.Username ∧
    (fillDefaults c).Password = c.Password ∧
    (c.RemoteDir ≠ "" → '\\' ∉ c.RemoteDir.data → (fillDefaults c).RemoteDir = c.RemoteDir) := by
  refine ⟨rfl, ?_, ?_, ?_, ?_, ?_, ?_, ?_, ?_⟩
  · by_cases h1 : c.Port = "" <;> by_cases h2 : c.RemoteDir = "" <;>
      by_cases h3 : c.LocalDir = "" <;> by_cases h4 : c.ProxyAddr = "" <;>
      simp [fillDefaults, h1, h2, h3, h4]
  · rw [fillDefaults_remoteDir]
    by_cases h2 : c.RemoteDir = ""
    · simp only [h2, if_true]; rfl
    · simp only [h2, if_false]
  · by_cases h1 : c.Port = "" <;> by_cases h2 : c.RemoteDir = "" <;>
      by_cases h3 : c.LocalDir = "" <;> by_cases h4 : c.ProxyAddr = "" <;>
      simp [fillDefaults, h1, h2, h3, h4]
  · by_cases h1 : c.Port = "" <;> by_cases h2 : c.RemoteDir = "" <;>
      by_cases h3 : c.LocalDir = "" <;> by_cases h4 : c.ProxyAddr = "" <;>
      simp [fillDefaults, h1, h2, h3, h4]
  · by_cases h1 : c.Port = "" <;> by_cases h2 : c.RemoteDir = "" <;>
      by_cases h3 : c.LocalDir = "" <;> by_cases h4 : c.ProxyAddr = "" <;>
      simp [fillDefaults, h1, h2, h3, h4]
  · by_cases h1 : c.Port = "" <;> by_cases h2 : c.RemoteDir = "" <;>
      by_cases h3 : c.LocalDir = "" <;> by_cases h4 : c.ProxyAddr = "" <;>
      simp [fillDefaults, h1, h2, h3, h4]
  · by_cases h1 : c.Port = "" <;> by_cases h2 : c.RemoteDir = "" <;>
      by_cases h3 : c.LocalDir = "" <;> by_cases h4 : c.ProxyAddr = "" <;>
      simp [fillDefaults, h1, h2, h3, h4]
  · intro hne hno
    rw [fillDefaults_remoteDir, if_neg hne]
    apply String.ext
    simp only [backslashesToSlashes]
    conv_rhs => rw [← List.map_id c.RemoteDir.data]
    apply List.map_congr_left
    intro ch hch
    have : ch ≠ '\\' := fun hc => hno (hc ▸ hch)
    simp [this]

/-- C4: the remote directory `loadConfig` returns is the configured one (the
default `inbox` when none is configured, that is when the field is empty) with
each backslash replaced by a forward slash; it never contains a backslash,
normalizing twice changes nothing, and two configurations whose remote
directories agree once their backslashes are replaced load to the same
configuration and so to the same run of `processFiles`. -/
theorem loadConfig_normalizes_remote_dir (c : Config) (d1 d2 : String) :
    loadConfig (.ok (.ok c)) = .ok (fillDefaults c) ∧
    (fillDefaults c).RemoteDir =
      backslashesToSlashes (if c.RemoteDir = "" then "inbox" else c.RemoteDir) ∧
    (c.RemoteDir ≠ "" → (fillDefaults c).RemoteDir = backslashesToSlashes c.RemoteDir) ∧
    '\\' ∉ (fillDefaults c).RemoteDir.data ∧
    replaceAll (replaceAll d1 "\\" "/") "\\" "/" = replaceAll d1 "\\" "/" ∧
    (fillDefaults (fillDefaults c)).RemoteDir = (fillDefaults c).RemoteDir ∧
    (backslashesToSlashes d1 = backslashesToSlashes d2 →
      fillDefaults { c with RemoteDir := d1 } = fillDefaults { c with RemoteDir := d2 } ∧
      ∀ env h, processFiles env (fillDefaults { c with RemoteDir := d1 }) h =
        processFiles env (fillDefaults { c with RemoteDir := d2 }) h) := by
  have hno : ∀ s : String, '\\' ∉ (backslashesToSlashes s).data := by
    intro s hmem
    simp only [backslashesToSlashes, List.mem_map] at hmem
    obtain ⟨ch, -, hch⟩ := hmem
    by_cases hc : ch = '\\'
    · simp [hc] at hch
    · simp [hc] at hch
  have hidem : ∀ s : String, backslashesToSlashes (backslashesToSlashes s) =
      backslashesToSlashes s := by
    intro s
    apply String.ext
    simp only [backslashesToSlashes, List.map_map]
    apply List.map_congr_left
    intro ch _
    by_cases hc : ch = '\\' <;> simp [hc]
  refine ⟨rfl, fillDefaults_remoteDir c, ?_, ?_, ?_, ?_, ?_⟩
  · intro hne
    rw [fillDefaults_remoteDir, if_neg hne]
  · rw [fillDefaults_remoteDir]
    exact hno _
  · simp only [replaceAll_backslash]
    exact hidem d1
  · rw [fillDefaults_remoteDir (fillDefaults c)]
    have hne : (fillDefaults c).RemoteDir ≠ "" := by
      rw [fillDefaults_remoteDir]
      intro h
      have := (backslashesToSlashes_eq_empty _).mp h
      by_cases h2 : c.RemoteDir = ""
      · simp [h2] at this
      · simp [h2] at this
    rw [if_neg hne, fillDefaults_remoteDir, hidem]
  · intro hd
    have hcfg : fillDefaults { c with RemoteDir := d1 } =
        fillDefaults { c with RemoteDir := d2 } := by
      have hemp : d1 = "" ↔ d2 = "" := by
        rw [← backslashesToSlashes_eq_empty d1, ← backslashesToSlashes_eq_empty d2, hd]
      have hd' : replaceAll d1 "\\" "/" = replaceAll d2 "\\" "/" := by
        simpa only [replaceAll_backslash] using hd
      by_cases h2 : d1 = ""
      · have h2' : d2 = "" := hemp.mp h2
        subst h2 h2'
        rfl
      · have h2' : ¬ d2 = "" := fun h => h2 (hemp.mpr h)
        by_cases h1 : c.Port = "" <;> by_cases h3 : c.LocalDir = "" <;>
          by_cases h4 : c.ProxyAddr = "" <;>
          simp [fillDefaults, h1, h2, h2', h3, h4, hd']
    exact ⟨hcfg, fun env h => by rw [hcfg]⟩

/-! ## The theorems at concrete runs -/

theorem transferAndRemove_removes_iff_copied_witness :
    removedPaths (transferAndRemove copyFailEnv [] "inbox/a.txt" "downloads/a.txt").2 = [] ∧
    removedPaths (transferAndRemove okEnv [] "inbox/a.txt" "downloads/a.txt").2 =
      ["inbox/a.txt"] :=
  ⟨((transferAndRemove_removes_iff_copied copyFailEnv [] "inbox/a.txt"
      "downloads/a.txt").2.2.2 (by decide)).1,
    (transferAndRemove_removes_iff_copied okEnv [] "inbox/a.txt"
      "downloads/a.txt").2.2.1 (by decide)⟩

theorem processFiles_isolates_failures_witness :
    (processFiles openFailEnv (fillDefaults minimalConfig) []).1 = none ∧
    Event.sftpRemove "inbox/b.txt" none ∈
      (processFiles openFailEnv (fillDefaults minimalConfig) []).2 := by
  have key := processFiles_isolates_failures openFailEnv (fillDefaults minimalConfig) []
    sampleListing (by decide) (by decide)
  refine ⟨key.1, ?_⟩
  obtain ⟨rest, hrest⟩ := key.2 [⟨"a.txt", false⟩, ⟨"sub", true⟩] ⟨"b.txt", false⟩ [] _
    "inbox/b.txt" "downloads/b.txt" sampleContent (by decide) (by decide) rfl (by decide)
    (by decide) (by decide) (by decide) (by decide) (by decide)
  rw [hrest]
  simp

theorem loadConfig_fills_defaults_witness :
    fillDefaults minimalConfig =
      ⟨"example.onion", "22", "user", "secret", "inbox", "downloads", "127.0.0.1:9050"⟩ ∧
    (fillDefaults { minimalConfig with RemoteDir := "inbox/queue" }).RemoteDir =
      "inbox/queue" :=
  ⟨by decide,
    (loadConfig_fills_defaults { minimalConfig with RemoteDir := "inbox/queue" }).2.2.2.2.2.2.2.2
      (by decide) (by decide)⟩

theorem loadConfig_normalizes_remote_dir_witness :
    (fillDefaults { minimalConfig with RemoteDir := "inbox\\queue" }).RemoteDir =
      backslashesToSlashes "inbox\\queue" ∧
    backslashesToSlashes "inbox\\queue" = "inbox/queue" ∧
    fillDefaults { minimalConfig with RemoteDir := "inbox\\queue" } =
      fillDefaults { minimalConfig with RemoteDir := "inbox/queue" } :=
  ⟨(loadConfig_normalizes_remote_dir { minimalConfig with RemoteDir := "inbox\\queue" }
      "inbox\\queue" "inbox/queue").2.2.1 (by decide),
    by decide,
    ((loadConfig_normalizes_remote_dir minimalConfig "inbox\\queue" "inbox/queue").2.2.2.2.2.2
      (by decide)).1⟩

/-- C5, as stated, fails: with remote directory `inbox/` the entry `a.txt` is
opened and removed at `inbox/a.txt`, not at `inbox/` + `/` + `a.txt`. -/
theorem processFiles_remote_path_counterexample :
    (fillDefaults { minimalConfig with RemoteDir := "inbox/" }).RemoteDir = "inbox/" ∧
    openedPaths (processFiles (scriptedEnv [⟨"a.txt", false⟩] sampleContent noFaults)
      (fillDefaults { minimalConfig with RemoteDir := "inbox/" }) []).2 = ["inbox/a.txt"] ∧
    removedPaths (processFiles (scriptedEnv [⟨"a.txt", false⟩] sampleContent noFaults)
      (fillDefaults { minimalConfig with RemoteDir := "inbox/" }) []).2 = ["inbox/a.txt"] ∧
    "inbox/a.txt" ≠ "inbox/" ++ "/" ++ "a.txt" := by
  decide

theorem processFiles_remote_path_witness :
    (∃ r, Event.sftpOpen "inbox/b.txt" r ∈
      (processFiles okEnv (fillDefaults minimalConfig) []).2) ∧
    trimSuffix "inbox" "/" ++ "/" ++ "b.txt" = "inbox" ++ "/" ++ "b.txt" := by
  have key := processFiles_remote_path okEnv (fillDefaults minimalConfig) []
    sampleListing (by decide) (by decide)
  exact ⟨key.2.1 ⟨"b.txt", false⟩ (by decide) rfl, key.2.2 (by decide) ⟨"b.txt", false⟩⟩

theorem processFiles_skips_directories_witness :
    openedPaths (processFiles okEnv (fillDefaults minimalConfig) []).2 =
      ["inbox/a.txt", "inbox/b.txt"] := by
  have key := (processFiles_skips_directories okEnv (fillDefaults minimalConfig) []
    sampleListing (by decide) (by decide)).1
  rw [key]
  decide

theorem processFiles_creates_local_dir_first_witness :
    processFiles mkdirFailEnv (fillDefaults minimalConfig) [] =
      (some "failed to create local directory: permission denied",
        [.osMkdirAll "downloads" 0o700 (some "permission denied")]) :=
  (processFiles_creates_local_dir_first mkdirFailEnv (fillDefaults minimalConfig) []).2
    "permission denied" (by decide)

theorem processFiles_empty_listing_witness :
    processFiles emptyEnv (fillDefaults minimalConfig) [] =
      (none,
        [.osMkdirAll "downloads" 0o700 none, .sftpReadDir "inbox" [] none,
          .stdout "No files found in remote directory\n"]) :=
  (processFiles_empty_listing emptyEnv (fillDefaults minimalConfig) [] (by decide)
    (by decide)).1

theorem transferFile_closes_what_it_opened_witness :
    (transferFile copyFailEnv [] "inbox/a.txt" "downloads/a.txt").2.count
        (.closeSrc "inbox/a.txt") = 1 ∧
    (transferFile copyFailEnv [] "inbox/a.txt" "downloads/a.txt").2.count
        (.closeDst "downloads/a.txt") = 1 :=
  ⟨(transferFile_closes_what_it_opened copyFailEnv [] "inbox/a.txt"
      "downloads/a.txt").2.2.1 (by decide),
    (transferFile_closes_what_it_opened copyFailEnv [] "inbox/a.txt"
      "downloads/a.txt").2.2.2.1 (by decide) (by decide)⟩

theorem transferFile_copy_failure_leaves_truncated_file_witness :
    staleLocalFS.files "downloads/a.txt" = some [1, 2, 3] ∧
    (localAfter staleLocalFS
      (transferAndRemove copyFailEnv [] "inbox/a.txt" "downloads/a.txt").2).files
        "downloads/a.txt" = some [104] :=
  ⟨rfl,
    (transferFile_copy_failure_leaves_truncated_file copyFailEnv [] "inbox/a.txt"
      "downloads/a.txt" "connection lost" [104] (by decide) (by decide)
      (by decide)).2.2.2.1 staleLocalFS⟩

end Oget
